import Mathlib

/-!
Verification development for the `flight-rs` 1984-RPG server core.

The Rust sources embedded here are `src/rpg_structs.rs` (data model, world
seed, protocol enums) and `src/lib.rs` (`handle_client_message`, the command
processor, and the per-tick body of `game_loop`: termination scan, removal,
physics integration, broadcast).

Modelling conventions:
* `u8`/`u32` fields become `Nat`; `saturating_add` is `min (a + b) 255`,
  `saturating_sub` on naturals is truncated subtraction; `i8` becomes `Int`.
* `f32` scalars, vectors and quaternions become exact rationals (`ℚ`):
  claims about the *algebra* of the code are settled over exact arithmetic,
  while claims about floating-point rounding are out of scope.
* `HashMap` becomes an association list with the usual lookup / insert /
  remove / modify operations; reachable states keep keys without duplicates.
* The `FlyInput` orientation update builds axis-angle quaternions from
  normalized axes with sine and cosine (`UnitQuaternion::from_axis_angle`),
  which have no exact rational counterpart.  The whole development is
  therefore parameterized by a function `rotFn` standing for that composed
  orientation update; every theorem holds for all `rotFn`, and no settled
  claim depends on its value.
* Message *delivery* (`send_message_to_client`, `broadcast_message`,
  `broadcast_state_update`, the close frame sent to a removed player's sink)
  is modelled as an emitted list of `Delivery` values in emission order.
-/

namespace Flight

/-- `u8::saturating_add` on the `Nat` model of `u8` values. -/
def satAdd8 (a b : Nat) : Nat := min (a + b) 255

/-- `u8::saturating_sub` on the `Nat` model of `u8` values: truncated
subtraction. -/
def satSub8 (a b : Nat) : Nat := a - b

/-- A 3-component vector over exact rationals (`nalgebra::Vector3<f32>` /
`Point3<f32>`). -/
@[ext]
structure Vec3 where
  x : ℚ
  y : ℚ
  z : ℚ
deriving DecidableEq

/-- Componentwise vector addition. -/
def Vec3.add (a b : Vec3) : Vec3 := ⟨a.x + b.x, a.y + b.y, a.z + b.z⟩

/-- Vector times scalar, scalar on the right (`v * c` in the Rust source). -/
def Vec3.scale (v : Vec3) (c : ℚ) : Vec3 := ⟨v.x * c, v.y * c, v.z * c⟩

/-- Scalar times vector, scalar on the left (used by the spec-side physics
formulation). -/
def Vec3.smul (c : ℚ) (v : Vec3) : Vec3 := ⟨c * v.x, c * v.y, c * v.z⟩

/-- Componentwise negation (`-v`). -/
def Vec3.neg (v : Vec3) : Vec3 := ⟨-v.x, -v.y, -v.z⟩

/-- Cross product of two vectors. -/
def Vec3.cross (a b : Vec3) : Vec3 :=
  ⟨a.y * b.z - a.z * b.y, a.z * b.x - a.x * b.z, a.x * b.y - a.y * b.x⟩

/-- The zero vector (`Vector3::zeros()`). -/
def Vec3.zero : Vec3 := ⟨0, 0, 0⟩

/-- A quaternion over exact rationals (`nalgebra::UnitQuaternion<f32>`;
the unit-norm constraint is a run-time property, not a type invariant). -/
@[ext]
structure Quat where
  w : ℚ
  x : ℚ
  y : ℚ
  z : ℚ
deriving DecidableEq

/-- `UnitQuaternion::identity()`. -/
def Quat.identity : Quat := ⟨1, 0, 0, 0⟩

/-- Rotation of a vector by a unit quaternion, in the cross-product form
used by `nalgebra` (`q * v`): with `u` the vector part,
`v + 2 w (u × v) + 2 (u × (u × v))`, which equals conjugation `q v q⁻¹`
for unit `q`. -/
def Quat.rotate (q : Quat) (v : Vec3) : Vec3 :=
  let u : Vec3 := ⟨q.x, q.y, q.z⟩
  let t : Vec3 := (u.cross v).scale 2
  (v.add (t.scale q.w)).add (u.cross t)

/-- Association-list lookup (`HashMap::get` / `contains_key`). -/
def alookup {α β : Type} [DecidableEq α] : List (α × β) → α → Option β
  | [], _ => none
  | (k, v) :: rest, k' => if k = k' then some v else alookup rest k'

/-- Association-list insert (`HashMap::insert`): replaces the first entry
with the key, otherwise appends. -/
def ainsert {α β : Type} [DecidableEq α] (k : α) (v : β) :
    List (α × β) → List (α × β)
  | [] => [(k, v)]
  | (k', v') :: rest =>
      if k' = k then (k, v) :: rest else (k', v') :: ainsert k v rest

/-- Association-list removal (`HashMap::remove`): drops the first entry with
the key. -/
def aremove {α β : Type} [DecidableEq α] (k : α) :
    List (α × β) → List (α × β)
  | [] => []
  | (k', v') :: rest => if k' = k then rest else (k', v') :: aremove k rest

/-- In-place modification of the value at a key (`HashMap::get_mut` followed
by field mutation): applies `f` to the first entry with the key. -/
def amodify {α β : Type} [DecidableEq α] (k : α) (f : β → β) :
    List (α × β) → List (α × β)
  | [] => []
  | (k', v') :: rest =>
      if k' = k then (k', f v') :: rest else (k', v') :: amodify k f rest

/-- `CatStatus` from `rpg_structs.rs`. -/
inductive CatStatus
  | following
  | waiting
  | injured
  | lost
deriving DecidableEq

/-- `CatState` from `rpg_structs.rs`. -/
structure CatState where
  name : String
  health : Nat
  status : CatStatus
deriving DecidableEq

/-- `Character` from `rpg_structs.rs`, with `Uuid` modelled as `Nat` and the
3-D state over exact rationals. -/
@[ext]
structure Character where
  player_id : Nat
  name : String
  occupation : String
  loyalty : Nat
  suspicion : Nat
  thoughtcrime : Nat
  health : Nat
  inventory : List String
  relationships : List (String × Int)
  location : String
  journal_entries : List String
  tasks_completed : Nat
  rebellion_score : Nat
  anarcho_knowledge : List (String × Nat)
  economic_freedom_score : Nat
  voluntary_actions : Nat
  position : Vec3
  velocity : Vec3
  orientation : Quat
  throttle : ℚ
  cat_companion : Option CatState
  kocourka_quest_active : Bool
  kocourka_quest_failed : Bool
deriving DecidableEq

/-- `Character::new` from `rpg_structs.rs`: the base record literal, the five
`anarcho_knowledge` inserts, then the cat-companion and quest assignments,
in source order. -/
def Character.new (player_id : Nat) (name occupation : String) : Character :=
  let character : Character :=
    { player_id := player_id
      name := name
      occupation := occupation
      loyalty := 50
      suspicion := 0
      thoughtcrime := 0
      health := 100
      inventory := []
      relationships := []
      location := "Victory Mansions"
      journal_entries := []
      tasks_completed := 0
      rebellion_score := 0
      anarcho_knowledge := []
      economic_freedom_score := 0
      voluntary_actions := 0
      position := ⟨0, 0, 17/10⟩
      velocity := Vec3.zero
      orientation := Quat.identity
      throttle := 0
      cat_companion := none
      kocourka_quest_active := false
      kocourka_quest_failed := false }
  let character :=
    { character with
      anarcho_knowledge :=
        ainsert "Decentralization" 0
          (ainsert "Private Property Rights" 0
            (ainsert "Free Market Economy" 0
              (ainsert "Voluntary Exchange" 0
                (ainsert "Principles of Non-Aggression" 0
                  character.anarcho_knowledge)))) }
  let character :=
    { character with
      cat_companion := some { name := "Kocourek", health := 100,
                              status := CatStatus.following }
      kocourka_quest_active := true }
  character

/-- `Location` from `rpg_structs.rs`. -/
structure Location where
  name : String
  description : String
  connections : List String
  safety : Nat
deriving DecidableEq

/-- `Npc` from `rpg_structs.rs`. -/
structure Npc where
  name : String
  description : String
  trust : Int
  location : String
deriving DecidableEq

/-- `WorldState` from `rpg_structs.rs`.  The forbidden-text tables
(`forbidden_texts`, `text_locations`) are static seed data that no modelled
operation (command handler or simulation tick) ever reads or writes; they are
omitted from the embedding. -/
structure WorldState where
  locations : List (String × Location)
  npcs : List (String × Npc)
  current_date : String
  two_minutes_hate_today : Bool
  chocolate_ration : Nat
  current_enemy : String
deriving DecidableEq

/-- `WorldState::initialize`: the fixed location graph and NPC table. -/
def WorldState.initialize : WorldState :=
  { locations :=
      ainsert "Ministry of Love"
        { name := "Ministry of Love"
          description := "The terrifying windowless building where enemies of the Party are taken. Room 101 is inside."
          connections := []
          safety := 0 }
        (ainsert "Charrington's Shop"
          { name := "Charrington's Shop"
            description := "An antique shop run by an elderly man. It has a room upstairs without a telescreen."
            connections := ["Victory Square", "Prole District"]
            safety := 3 }
          (ainsert "Prole District"
            { name := "Prole District"
              description := "The rundown area where the proles (working class) live with less surveillance."
              connections := ["Victory Square", "Charrington's Shop"]
              safety := 4 }
            (ainsert "Victory Square"
              { name := "Victory Square"
                description := "The central square where public executions and rallies are held."
                connections := ["Victory Mansions", "Ministry of Truth",
                                "Prole District", "Charrington's Shop"]
                safety := 1 }
              (ainsert "Canteen"
                { name := "Canteen"
                  description := "A gray cafeteria serving tasteless Victory meals and Victory Gin."
                  connections := ["Ministry of Truth"]
                  safety := 2 }
                (ainsert "Ministry of Truth"
                  { name := "Ministry of Truth"
                    description := "A massive pyramidal structure where historical documents are rewritten to match Party narratives."
                    connections := ["Victory Mansions", "Victory Square", "Canteen"]
                    safety := 1 }
                  (ainsert "Victory Mansions"
                    { name := "Victory Mansions"
                      description := "Your dilapidated apartment building. The telescreen on the wall continuously broadcasts Party propaganda."
                      connections := ["Ministry of Truth", "Victory Square"]
                      safety := 3 }
                    []))))))
    npcs :=
      ainsert "Old Trader"
        { name := "Old Trader"
          description := "An elderly prole who trades in black market goods and seems to remember life before the Party."
          trust := 70
          location := "Prole District" }
        (ainsert "Syme"
          { name := "Syme"
            description := "A philologist working on the 11th edition of the Newspeak dictionary."
            trust := 50
            location := "Canteen" }
          (ainsert "Parsons"
            { name := "Parsons"
              description := "Your neighbor, an enthusiastic Party supporter whose children spy on adults."
              trust := 20
              location := "Victory Mansions" }
            (ainsert "Charrington"
              { name := "Charrington"
                description := "The seemingly friendly old man who runs the antique shop."
                trust := -100
                location := "Charrington's Shop" }
              (ainsert "Julia"
                { name := "Julia"
                  description := "A young woman who works in the Fiction Department of the Ministry of Truth."
                  trust := 80
                  location := "Ministry of Truth" }
                (ainsert "O'Brien"
                  { name := "O'Brien"
                    description := "A high-ranking Inner Party member who seems to have rebellious tendencies."
                    trust := 0
                    location := "Ministry of Truth" }
                  [])))))
    current_date := "April 4, 1984"
    two_minutes_hate_today := true
    chocolate_ration := 30
    current_enemy := "Eurasia" }

/-- `GameState` from `rpg_structs.rs`: the player map, the world, the day
counter. -/
structure GameState where
  players : List (Nat × Character)
  world_state : WorldState
  day : Nat
deriving DecidableEq

/-- `GameState::new`. -/
def GameState.new : GameState :=
  { players := [], world_state := WorldState.initialize, day := 1 }

/-- `ServerMessage` from `rpg_structs.rs` (the variants the modelled handlers
emit; the anarcho-capitalist variants are declared in the source enum but
never constructed by `handle_client_message` or `game_loop`). -/
inductive ServerMessage
  | welcome (player_id : Nat) (initial_game_state : GameState)
  | playerJoined (player_id : Nat) (character : Character)
  | playerLeft (player_id : Nat)
  | gameStateUpdate (state : GameState)
  | narrativeUpdate (text : String)
  | error (text : String)
deriving DecidableEq

/-- `ClientMessage` from `rpg_structs.rs` (the eight variants that have an
arm in `handle_client_message`; the source enum also declares
anarcho-capitalist variants with no handler arm). -/
inductive ClientMessage
  | requestCharacterCreation (name occupation : String)
  | moveRequest (target_location : String)
  | flyInput (pitch roll yaw throttle_change : ℚ)
  | interactRequest (npc_name : String) (interaction_type : Nat)
  | journalWriteRequest (entry : String)
  | searchRequest
  | workRequest
  | restRequest
deriving DecidableEq

/-- One outbound delivery action, in emission order: `unicast` is
`send_message_to_client`, `broadcastExcept` is `broadcast_message` with an
excluded player, `broadcastAll` is `broadcast_state_update`, and `closeConn`
is the close frame sent to a removed player's sink. -/
inductive Delivery
  | unicast (player_id : Nat) (msg : ServerMessage)
  | broadcastExcept (player_id : Nat) (msg : ServerMessage)
  | broadcastAll (msg : ServerMessage)
  | closeConn (player_id : Nat)
deriving DecidableEq

/-- `FRAME_TIME = 1.0 / 30.0` from `lib.rs`. -/
def frameTime : ℚ := 1 / 30

/-- Clamp a rational to an interval (`f32::clamp`). -/
def qclamp (v lo hi : ℚ) : ℚ := min (max v lo) hi

/-- The occupation match inside the `RequestCharacterCreation` arm of
`handle_client_message` (`lib.rs` lines 244-258), written as the equivalent
chain of string tests: a closed table of stat deltas, unknown occupations
unchanged. -/
def occupationAdjust (occupation : String) (ch : Character) : Character :=
  if occupation = "Records Department Worker" then
    { ch with loyalty := satSub8 ch.loyalty 5,
              thoughtcrime := satAdd8 ch.thoughtcrime 10 }
  else if occupation = "Junior Spy Instructor" then
    { ch with loyalty := satAdd8 ch.loyalty 15,
              suspicion := satSub8 ch.suspicion 10 }
  else if occupation = "Fiction Department Writer" then
    { ch with thoughtcrime := satAdd8 ch.thoughtcrime 15 }
  else
    ch

/-- `handle_client_message` from `lib.rs`, parameterized by `rotFn`, the
`FlyInput` orientation update (the composed axis-angle rotation built with
sine/cosine in the source, which has no exact rational counterpart).
Returns the updated `GameState` and the emitted deliveries in order. -/
def handle_client_message (rotFn : ℚ → ℚ → ℚ → Quat → Quat)
    (player_id : Nat) (msg : ClientMessage) (s : GameState) :
    GameState × List Delivery :=
  match msg with
  | .requestCharacterCreation name occupation =>
      match alookup s.players player_id with
      | none =>
          let new_char := occupationAdjust occupation
            (Character.new player_id name occupation)
          let s' := { s with players := ainsert player_id new_char s.players }
          (s', [Delivery.broadcastExcept player_id
                  (ServerMessage.playerJoined player_id new_char),
                Delivery.unicast player_id (ServerMessage.gameStateUpdate s')])
      | some _ =>
          (s, [Delivery.unicast player_id
                 (ServerMessage.error "Character already created.")])
  | .moveRequest target_location =>
      match alookup s.players player_id with
      | some character =>
          match alookup s.world_state.locations character.location with
          | some current_loc_details =>
              if current_loc_details.connections.contains target_location then
                if (alookup s.world_state.locations target_location).isSome then
                  let s' := { s with players :=
                      (amodify player_id
                        (fun ch => { ch with location := target_location })
                        s.players) }
                  (s', [Delivery.broadcastAll (ServerMessage.gameStateUpdate s')])
                else
                  (s, [Delivery.unicast player_id (ServerMessage.error
                        ("Invalid move target: " ++ target_location))])
              else
                (s, [Delivery.unicast player_id (ServerMessage.error
                      ("Cannot move from " ++ character.location ++ " to "
                        ++ target_location))])
          | none =>
              (s, [Delivery.unicast player_id (ServerMessage.error
                    "Internal server error: Current location invalid.")])
      | none => (s, [])
  | .flyInput pitch roll yaw throttle_change =>
      match alookup s.players player_id with
      | some _ =>
          let s' := { s with players :=
              (amodify player_id
                (fun ch =>
                  { ch with
                    throttle :=
                      qclamp (ch.throttle + throttle_change * frameTime * 2) 0 1
                    orientation := rotFn pitch roll yaw ch.orientation })
                s.players) }
          (s', [])
      | none => (s, [])
  | .interactRequest npc_name interaction_type =>
      (s, [Delivery.unicast player_id (ServerMessage.narrativeUpdate
            ("You interact with " ++ npc_name ++ ". (Interaction type "
              ++ toString interaction_type ++ " - logic not implemented yet)"))])
  | .journalWriteRequest entry =>
      match alookup s.players player_id with
      | some _ =>
          let s' := { s with players :=
              (amodify player_id
                (fun ch =>
                  { ch with
                    journal_entries := ch.journal_entries ++ [entry]
                    thoughtcrime := satAdd8 ch.thoughtcrime 5 })
                s.players) }
          (s', [Delivery.unicast player_id (ServerMessage.narrativeUpdate
                  "You write in your secret journal. Your thoughtcrime increases."),
                Delivery.broadcastAll (ServerMessage.gameStateUpdate s')])
      | none => (s, [])
  | .searchRequest =>
      (s, [Delivery.unicast player_id (ServerMessage.narrativeUpdate
            "You search the area, but find nothing of interest (logic not implemented yet).")])
  | .workRequest =>
      (s, [Delivery.unicast player_id (ServerMessage.narrativeUpdate
            "You perform your duties for the Party (logic not implemented yet).")])
  | .restRequest =>
      match alookup s.players player_id with
      | some _ =>
          let s' := { s with players :=
              (amodify player_id
                (fun ch => { ch with health := min (satAdd8 ch.health 5) 100 })
                s.players) }
          (s', [Delivery.unicast player_id (ServerMessage.narrativeUpdate
                  "You rest for a while, recovering slightly."),
                Delivery.broadcastAll (ServerMessage.gameStateUpdate s')])
      | none => (s, [])

/-- The death narrative from the `game_loop` termination scan. -/
def deathText : String :=
  "Your health reached zero. You succumb to the harsh realities of Oceania."

/-- The arrest narrative from the `game_loop` termination scan. -/
def arrestText : String :=
  "Your suspicion level reached its peak. You are arrested by the Thought Police and taken to the Ministry of Love. Your journey ends here."

/-- The termination scan of `game_loop`: one pass over the player map
collecting `players_to_remove` and unicasting a cause-specific narrative
(death takes precedence over arrest, mirroring the `if`/`else if`). -/
def terminationScan : List (Nat × Character) → List Nat × List Delivery
  | [] => ([], [])
  | (id, character) :: rest =>
      let r := terminationScan rest
      if character.health = 0 then
        (id :: r.1,
         Delivery.unicast id (ServerMessage.narrativeUpdate deathText) :: r.2)
      else if 100 ≤ character.suspicion then
        (id :: r.1,
         Delivery.unicast id (ServerMessage.narrativeUpdate arrestText) :: r.2)
      else
        r

/-- The removal pass of `game_loop`: for each marked id still present,
remove it, broadcast `PlayerLeft` to everyone else, and send a close frame
to its sink when one is registered; the `Bool` is the `state_changed`
flag. -/
def removeMarked (clients : List Nat) :
    List Nat → List (Nat × Character) →
    List (Nat × Character) × List Delivery × Bool
  | [], ps => (ps, [], false)
  | id :: rest, ps =>
      match alookup ps id with
      | some _ =>
          let r := removeMarked clients rest (aremove id ps)
          (r.1,
           Delivery.broadcastExcept id (ServerMessage.playerLeft id) ::
             ((if id ∈ clients then [Delivery.closeConn id] else []) ++ r.2.1),
           true)
      | none => removeMarked clients rest ps

/-- The gravity vector `Vector3::new(0.0, -9.81, 0.0)` from `game_loop`. -/
def gravity : Vec3 := ⟨0, -(981/100 : ℚ), 0⟩

/-- `drag_coefficient = 0.5` from `game_loop`. -/
def dragCoefficient : ℚ := 1 / 2

/-- The per-character physics update of `game_loop` (`lib.rs` lines 636-667):
thrust along the rotated forward axis, gravity, linear drag, semi-implicit
Euler integration, then the ground-plane constraint. -/
def physicsStep (character : Character) : Character :=
  let forward_vector := character.orientation.rotate ⟨0, 0, 1⟩
  let thrust_force := (forward_vector.scale character.throttle).scale 20
  let drag_force := (character.velocity.neg).scale dragCoefficient
  let net_force := (thrust_force.add gravity).add drag_force
  let velocity' := character.velocity.add (net_force.scale frameTime)
  let position' := character.position.add (velocity'.scale frameTime)
  if position'.y < 0 then
    { character with
      position := { position' with y := 0 }
      velocity := ⟨velocity'.x * (9/10),
                   if velocity'.y < 0 then 0 else velocity'.y,
                   velocity'.z * (9/10)⟩ }
  else
    { character with position := position', velocity := velocity' }

/-- One tick of `game_loop` under the world lock: termination scan, removal
of marked players, physics for every remaining character, and the final
state broadcast when anything changed. -/
def gameTick (clients : List Nat) (s : GameState) :
    GameState × List Delivery :=
  let scan := terminationScan s.players
  let rem := removeMarked clients scan.1 s.players
  let players' := rem.1.map (fun p => (p.1, physicsStep p.2))
  let changed := rem.2.2 || !rem.1.isEmpty
  let s' := { s with players := players' }
  (s', scan.2 ++ rem.2.1 ++
    (if changed then [Delivery.broadcastAll (ServerMessage.gameStateUpdate s')]
     else []))

/-- One externally triggered transition: a decoded client command from some
connection, or one simulation tick (with the currently registered sinks). -/
inductive Cmd
  | client (player_id : Nat) (msg : ClientMessage)
  | tick (clients : List Nat)

/-- The combined transition function. -/
def step (rotFn : ℚ → ℚ → ℚ → Quat → Quat) (s : GameState) :
    Cmd → GameState × List Delivery
  | .client player_id msg => handle_client_message rotFn player_id msg s
  | .tick clients => gameTick clients s

/-- Replay a command sequence from a state, discarding outputs. -/
def run (rotFn : ℚ → ℚ → ℚ → Quat → Quat) (s : GameState) :
    List Cmd → GameState
  | [] => s
  | c :: cs => run rotFn (step rotFn s c).1 cs

/-- The states reachable from the fresh server state by any sequence of
client commands and simulation ticks. -/
inductive Reachable (rotFn : ℚ → ℚ → ℚ → Quat → Quat) : GameState → Prop
  | init : Reachable rotFn GameState.new
  | next (s : GameState) (c : Cmd) (h : Reachable rotFn s) :
      Reachable rotFn (step rotFn s c).1

/-- A trivial instantiation of the orientation-update parameter, used by
concrete witnesses (no settled claim depends on its value). -/
def rotId : ℚ → ℚ → ℚ → Quat → Quat := fun _ _ _ q => q

end Flight

namespace Flight

/-- The per-character physics update as the specification words it
(claim C8): net force is gravity plus linear drag plus thrust (a fixed
scale times throttle along the orientation-rotated forward axis), velocity
is updated first by the force times the tick duration, position then uses
the updated velocity, and the ground constraint clamps, zeroes a negative
vertical velocity and applies the horizontal friction factor.  Written for
comparison against `physicsStep`, which is translated from the source. -/
def physicsStepSpec (ch : Character) : Character :=
  let forwardAxis := ch.orientation.rotate ⟨0, 0, 1⟩
  let thrust := Vec3.smul (20 * ch.throttle) forwardAxis
  let drag := Vec3.smul (-dragCoefficient) ch.velocity
  let net := (gravity.add drag).add thrust
  let v' := ch.velocity.add (Vec3.smul frameTime net)
  let p' := ch.position.add (Vec3.smul frameTime v')
  if p'.y < 0 then
    { ch with
      position := ⟨p'.x, 0, p'.z⟩
      velocity := ⟨(9/10) * v'.x, if v'.y < 0 then 0 else v'.y,
                   (9/10) * v'.z⟩ }
  else
    { ch with position := p', velocity := v' }

/-- Every player's `location` is a key of the initial (and only) location
table. -/
def locationsOk (ps : List (Nat × Character)) : Bool :=
  ps.all fun p => (alookup WorldState.initialize.locations p.2.location).isSome

/-- The `MoveRequest` guard of `handle_client_message`: the current
location's connection list contains the target and the target is a key of
`World.locations`. -/
def moveAllowed (s : GameState) (ch : Character) (target : String) : Bool :=
  (match alookup s.world_state.locations ch.location with
   | some loc => loc.connections.contains target
   | none => false)
  && (alookup s.world_state.locations target).isSome

/-- Number of occurrences of one delivery action in an emission list. -/
def dcount (d : Delivery) : List Delivery → Nat
  | [] => 0
  | e :: rest => (if e = d then 1 else 0) + dcount d rest

/-- The cause-specific termination narrative for a character (death takes
precedence over arrest, as in the scan's `if`/`else if`). -/
def causeText (ch : Character) : String :=
  if ch.health = 0 then deathText else arrestText

/-- Fixture: a character whose occupation is outside the adjustment table. -/
def unknownChar : Character := Character.new 0 "Winston" "Unemployed"

/-- Fixture: a world holding exactly that character under id 0. -/
def oneState : GameState := { GameState.new with players := [(0, unknownChar)] }

/-- Fixture: the same character with health forced to zero. -/
def deadChar : Character := { unknownChar with health := 0 }

/-- Fixture: a world holding the dead character under id 0. -/
def deadState : GameState := { GameState.new with players := [(0, deadChar)] }

/-- Fixture: the reachable state after one character-creation command. -/
def createdState : GameState :=
  (step rotId GameState.new
    (Cmd.client 0 (ClientMessage.requestCharacterCreation "Winston" "Unemployed"))).1

/-- Fixture: one character creation followed by nineteen journal writes. -/
def c1Trace : List Cmd :=
  Cmd.client 0 (ClientMessage.requestCharacterCreation "Winston"
    "Records Department Worker") ::
    List.replicate 19 (Cmd.client 0 (ClientMessage.journalWriteRequest "entry"))

end Flight

namespace Flight

lemma alookup_eq_none_of_not_mem {β : Type} (ps : List (Nat × β)) (k : Nat)
    (h : k ∉ ps.map Prod.fst) : alookup ps k = none := by
  induction ps with
  | nil => rfl
  | cons p rest ih =>
    obtain ⟨k0, v0⟩ := p
    simp only [List.map_cons, List.mem_cons] at h
    push_neg at h
    have hne : ¬ k0 = k := fun hk => h.1 hk.symm
    simp [alookup, hne, ih h.2]

lemma alookup_ainsert_self {β : Type} (k : Nat) (v : β) (ps : List (Nat × β)) :
    alookup (ainsert k v ps) k = some v := by
  induction ps with
  | nil => simp [ainsert, alookup]
  | cons p rest ih =>
    obtain ⟨k0, v0⟩ := p
    by_cases h : k0 = k
    · simp [ainsert, alookup, h]
    · simp [ainsert, alookup, h, ih]

lemma alookup_amodify_self {β : Type} (k : Nat) (f : β → β)
    (ps : List (Nat × β)) :
    alookup (amodify k f ps) k = (alookup ps k).map f := by
  induction ps with
  | nil => simp [amodify, alookup]
  | cons p rest ih =>
    obtain ⟨k0, v0⟩ := p
    by_cases h : k0 = k
    · simp [amodify, alookup, h]
    · simp [amodify, alookup, h, ih]

lemma alookup_aremove_ne {β : Type} (k k' : Nat) (ps : List (Nat × β))
    (h : k' ≠ k) : alookup (aremove k ps) k' = alookup ps k' := by
  induction ps with
  | nil => rfl
  | cons p rest ih =>
    obtain ⟨k0, v0⟩ := p
    by_cases h0 : k0 = k
    · subst h0
      have hne : ¬ k0 = k' := fun hh => h hh.symm
      simp [aremove, alookup, hne]
    · simp [aremove, alookup, h0, ih]

lemma aremove_keys_sublist {β : Type} (k : Nat) (ps : List (Nat × β)) :
    List.Sublist ((aremove k ps).map Prod.fst) (ps.map Prod.fst) := by
  induction ps with
  | nil => simp [aremove]
  | cons p rest ih =>
    obtain ⟨k0, v0⟩ := p
    by_cases h0 : k0 = k
    · simp only [aremove, h0, if_pos rfl, List.map_cons]
      exact List.sublist_cons_self _ _
    · simpa [aremove, h0] using ih.cons₂ k0

lemma alookup_aremove_self {β : Type} (k : Nat) (ps : List (Nat × β))
    (hnd : (ps.map Prod.fst).Nodup) : alookup (aremove k ps) k = none := by
  induction ps with
  | nil => rfl
  | cons p rest ih =>
    obtain ⟨k0, v0⟩ := p
    simp only [List.map_cons, List.nodup_cons] at hnd
    by_cases h0 : k0 = k
    · subst h0
      simp only [aremove, if_pos rfl]
      exact alookup_eq_none_of_not_mem rest k0 hnd.1
    · simp [aremove, alookup, h0, ih hnd.2]

lemma alookup_mapvalues {β : Type} (f : β → β) (ps : List (Nat × β)) (k : Nat) :
    alookup (ps.map (fun p => (p.1, f p.2))) k = (alookup ps k).map f := by
  induction ps with
  | nil => rfl
  | cons p rest ih =>
    obtain ⟨k0, v0⟩ := p
    by_cases h0 : k0 = k
    · simp [alookup, h0]
    · simp [alookup, h0, ih]

end Flight

namespace Flight

lemma all_ainsert {β : Type} (Q : Nat × β → Bool) (k : Nat) (v : β)
    (ps : List (Nat × β)) (hps : ps.all Q = true) (hv : Q (k, v) = true) :
    (ainsert k v ps).all Q = true := by
  induction ps with
  | nil => simp [ainsert, hv]
  | cons p rest ih =>
    obtain ⟨k0, v0⟩ := p
    simp only [List.all_cons, Bool.and_eq_true] at hps
    by_cases h : k0 = k
    · simp [ainsert, h, hv, hps.2]
    · simp [ainsert, h, hps.1, ih hps.2]

lemma all_amodify {β : Type} (Q : Nat × β → Bool) (k : Nat) (f : β → β)
    (ps : List (Nat × β)) (hps : ps.all Q = true)
    (hf : ∀ v, Q (k, v) = true → Q (k, f v) = true) :
    (amodify k f ps).all Q = true := by
  induction ps with
  | nil => simp [amodify]
  | cons p rest ih =>
    obtain ⟨k0, v0⟩ := p
    simp only [List.all_cons, Bool.and_eq_true] at hps
    by_cases h : k0 = k
    · subst h
      simp [amodify, hf v0 hps.1, hps.2]
    · simp [amodify, h, hps.1, ih hps.2]

lemma all_aremove {β : Type} (Q : Nat × β → Bool) (k : Nat)
    (ps : List (Nat × β)) (hps : ps.all Q = true) :
    (aremove k ps).all Q = true := by
  induction ps with
  | nil => simp [aremove]
  | cons p rest ih =>
    obtain ⟨k0, v0⟩ := p
    simp only [List.all_cons, Bool.and_eq_true] at hps
    by_cases h : k0 = k
    · simp [aremove, h, hps.2]
    · simp [aremove, h, hps.1, ih hps.2]

lemma all_removeMarked (Q : Nat × Character → Bool) (clients : List Nat)
    (ids : List Nat) :
    ∀ ps : List (Nat × Character), ps.all Q = true →
      ((removeMarked clients ids ps).1).all Q = true := by
  induction ids with
  | nil => intro ps hps; simpa [removeMarked] using hps
  | cons id rest ih =>
    intro ps hps
    cases h : alookup ps id with
    | some ch =>
        simpa [removeMarked, h] using ih (aremove id ps) (all_aremove Q id ps hps)
    | none => simpa [removeMarked, h] using ih ps hps

lemma physicsStep_location (ch : Character) :
    (physicsStep ch).location = ch.location := by
  simp only [physicsStep]
  split <;> rfl

lemma occupationAdjust_location (occ : String) (ch : Character) :
    (occupationAdjust occ ch).location = ch.location := by
  unfold occupationAdjust
  split_ifs <;> rfl

end Flight

namespace Flight

lemma world_state_step (rotFn : ℚ → ℚ → ℚ → Quat → Quat) (s : GameState)
    (c : Cmd) : (step rotFn s c).1.world_state = s.world_state := by
  cases c with
  | tick clients => simp [step, gameTick]
  | client pid msg =>
    cases msg with
    | requestCharacterCreation name occ =>
        cases h : alookup s.players pid <;> simp [step, handle_client_message, h]
    | moveRequest target =>
        cases h : alookup s.players pid with
        | none => simp [step, handle_client_message, h]
        | some ch =>
          cases h2 : alookup s.world_state.locations ch.location with
          | none => simp [step, handle_client_message, h, h2]
          | some loc =>
            by_cases h3 : target ∈ loc.connections
            · by_cases h4 : (alookup s.world_state.locations target).isSome = true
              · simp [step, handle_client_message, h, h2, h3, h4]
              · simp [step, handle_client_message, h, h2, h3, h4]
            · simp [step, handle_client_message, h, h2, h3]
    | flyInput p r y t =>
        cases h : alookup s.players pid <;> simp [step, handle_client_message, h]
    | interactRequest n t => simp [step, handle_client_message]
    | journalWriteRequest e =>
        cases h : alookup s.players pid <;> simp [step, handle_client_message, h]
    | searchRequest => simp [step, handle_client_message]
    | workRequest => simp [step, handle_client_message]
    | restRequest =>
        cases h : alookup s.players pid <;> simp [step, handle_client_message, h]

lemma locationsOk_step (rotFn : ℚ → ℚ → ℚ → Quat → Quat) (s : GameState)
    (c : Cmd) (hw : s.world_state = WorldState.initialize)
    (h : locationsOk s.players = true) :
    locationsOk (step rotFn s c).1.players = true := by
  cases c with
  | tick clients =>
      simp only [step, gameTick]
      unfold locationsOk
      rw [List.all_map]
      have hrm := all_removeMarked
        (fun p => (alookup WorldState.initialize.locations p.2.location).isSome)
        clients (terminationScan s.players).1 s.players h
      refine List.all_eq_true.mpr ?_
      intro p hp
      have := List.all_eq_true.mp hrm p hp
      simpa [Function.comp, physicsStep_location] using this
  | client pid msg =>
    cases msg with
    | requestCharacterCreation name occ =>
        cases hl : alookup s.players pid with
        | some ch => simpa [step, handle_client_message, hl] using h
        | none =>
            simp only [step, handle_client_message, hl]
            unfold locationsOk
            refine all_ainsert _ pid _ s.players h ?_
            have hloc : (occupationAdjust occ
                (Character.new pid name occ)).location = "Victory Mansions" :=
              occupationAdjust_location occ _
            simp only [hloc]
            decide
    | moveRequest target =>
        cases hl : alookup s.players pid with
        | none => simpa [step, handle_client_message, hl] using h
        | some ch =>
          cases h2 : alookup s.world_state.locations ch.location with
          | none => simpa [step, handle_client_message, hl, h2] using h
          | some loc =>
            by_cases h3 : target ∈ loc.connections
            · have h3' : loc.connections.contains target = true := by simpa using h3
              by_cases h4 : (alookup s.world_state.locations target).isSome = true
              · simp only [step, handle_client_message, hl, h2, h3', h4,
                  eq_self_iff_true, if_true]
                unfold locationsOk
                refine all_amodify _ pid _ s.players h ?_
                intro v _
                rw [hw] at h4
                simpa using h4
              · simpa [step, handle_client_message, hl, h2, h3, h4] using h
            · simpa [step, handle_client_message, hl, h2, h3] using h
    | flyInput p r y t =>
        cases hl : alookup s.players pid with
        | none => simpa [step, handle_client_message, hl] using h
        | some ch =>
            simp only [step, handle_client_message, hl]
            exact all_amodify _ pid _ s.players h (fun v hv => hv)
    | interactRequest n t => simpa [step, handle_client_message] using h
    | journalWriteRequest e =>
        cases hl : alookup s.players pid with
        | none => simpa [step, handle_client_message, hl] using h
        | some ch =>
            simp only [step, handle_client_message, hl]
            exact all_amodify _ pid _ s.players h (fun v hv => hv)
    | searchRequest => simpa [step, handle_client_message] using h
    | workRequest => simpa [step, handle_client_message] using h
    | restRequest =>
        cases hl : alookup s.players pid with
        | none => simpa [step, handle_client_message, hl] using h
        | some ch =>
            simp only [step, handle_client_message, hl]
            exact all_amodify _ pid _ s.players h (fun v hv => hv)

lemma reachable_inv (rotFn : ℚ → ℚ → ℚ → Quat → Quat) (s : GameState)
    (hs : Reachable rotFn s) :
    s.world_state = WorldState.initialize ∧ locationsOk s.players = true := by
  induction hs with
  | init => exact ⟨rfl, rfl⟩
  | next s c h ih =>
      exact ⟨(world_state_step rotFn s c).trans ih.1,
             locationsOk_step rotFn s c ih.1 ih.2⟩

end Flight

namespace Flight

/-- C2: in every reachable state, every character's `location` is a key of
`World.locations` (which always equals the initial table); a `MoveRequest`
whose target is not listed in the current location's connections or is not a
key of `World.locations` yields a sender-only error and leaves the state
(hence the character's location) unchanged, and a `MoveRequest` satisfying
both conditions sets the character's location to the target. -/
theorem C2_location_invariant_and_move (rotFn : ℚ → ℚ → ℚ → Quat → Quat)
    (s : GameState) (hs : Reachable rotFn s) :
    (s.world_state = WorldState.initialize ∧ locationsOk s.players = true)
    ∧ (∀ pid ch target, alookup s.players pid = some ch →
        (moveAllowed s ch target = false →
          ∃ e, handle_client_message rotFn pid (ClientMessage.moveRequest target) s
              = (s, [Delivery.unicast pid (ServerMessage.error e)]))
        ∧ (moveAllowed s ch target = true →
          (alookup (handle_client_message rotFn pid
              (ClientMessage.moveRequest target) s).1.players pid).map
            (fun c => c.location) = some target)) := by
  refine ⟨reachable_inv rotFn s hs, ?_⟩
  intro pid ch target hl
  constructor
  · intro hfail
    cases h2 : alookup s.world_state.locations ch.location with
    | none =>
        exact ⟨"Internal server error: Current location invalid.",
          by simp [handle_client_message, hl, h2]⟩
    | some loc =>
        simp only [moveAllowed, h2, Bool.and_eq_false_iff] at hfail
        rcases hfail with h3 | h4
        · have hmem : target ∉ loc.connections := by
            simpa using h3
          exact ⟨"Cannot move from " ++ ch.location ++ " to " ++ target,
            by simp [handle_client_message, hl, h2, hmem]⟩
        · by_cases h3 : target ∈ loc.connections
          · have h3' : loc.connections.contains target = true := by simpa using h3
            refine ⟨"Invalid move target: " ++ target, ?_⟩
            simp only [handle_client_message, hl, h2, h3', eq_self_iff_true,
              if_true]
            simp [h4]
          · exact ⟨"Cannot move from " ++ ch.location ++ " to " ++ target,
              by simp [handle_client_message, hl, h2, h3]⟩
  · intro hok
    cases h2 : alookup s.world_state.locations ch.location with
    | none => simp [moveAllowed, h2] at hok
    | some loc =>
        simp only [moveAllowed, h2, Bool.and_eq_true] at hok
        simp only [handle_client_message, hl, h2, hok.1, hok.2,
          eq_self_iff_true, if_true]
        simp [alookup_amodify_self, hl]

/-- C2 witness: a concrete reachable state (one character created from the
fresh world) in which a legal move relocates the character. -/
theorem C2_location_witness :
    createdState.world_state = WorldState.initialize
    ∧ (alookup (handle_client_message rotId 0
        (ClientMessage.moveRequest "Ministry of Truth") createdState).1.players 0).map
        (fun c => c.location) = some "Ministry of Truth" := by
  have h := C2_location_invariant_and_move rotId createdState
    (Reachable.next GameState.new
      (Cmd.client 0 (ClientMessage.requestCharacterCreation "Winston" "Unemployed"))
      Reachable.init)
  exact ⟨h.1.1,
    (h.2 0 unknownChar "Ministry of Truth" rfl).2 rfl⟩

end Flight

namespace Flight

/-- C1 (code bug): the claimed [0,100] bound with clamping at 100 fails.
After one character creation ("Records Department Worker", thoughtcrime 10)
and nineteen `JournalWriteRequest`s (each `saturating_add(5)`, which clamps
only at the `u8` bound 255), the reachable state holds a character whose
thoughtcrime is 105, strictly above 100. -/
theorem C1_journal_thoughtcrime_exceeds_100 :
    (alookup (run rotId GameState.new c1Trace).players 0).map
        (fun c => c.thoughtcrime) = some 105
    ∧ 100 < 105 :=
  ⟨by decide, by decide⟩

/-- C3 counterexample: `Character::new` applied to the occupation
"Records Department Worker" still has the unadjusted defaults (loyalty 50,
thoughtcrime 0), not the claimed already-applied deltas (loyalty 45). -/
theorem C3_new_ignores_occupation :
    (Character.new 0 "Winston" "Records Department Worker").loyalty = 50
    ∧ (Character.new 0 "Winston" "Records Department Worker").thoughtcrime = 0
    ∧ (Character.new 0 "Winston" "Records Department Worker").loyalty ≠ 45 :=
  ⟨by decide, by decide, by decide⟩

/-- C3 amended: `Character::new` always succeeds and returns the pure
defaults (loyalty 50, suspicion 0, thoughtcrime 0, rebellion 0, health 100,
home location, zero velocity, identity orientation, zero throttle) with no
occupation adjustment; the closed occupation table is applied by the
character-creation command handler after construction, and unrecognized
occupations receive no adjustment there. -/
theorem C3_amended_defaults_and_handler_adjust
    (rotFn : ℚ → ℚ → ℚ → Quat → Quat) (id pid : Nat) (name occ : String)
    (s : GameState) (h : alookup s.players pid = none) :
    (Character.new id name occ).loyalty = 50
    ∧ (Character.new id name occ).suspicion = 0
    ∧ (Character.new id name occ).thoughtcrime = 0
    ∧ (Character.new id name occ).rebellion_score = 0
    ∧ (Character.new id name occ).health = 100
    ∧ (Character.new id name occ).location = "Victory Mansions"
    ∧ (Character.new id name occ).velocity = Vec3.zero
    ∧ (Character.new id name occ).orientation = Quat.identity
    ∧ (Character.new id name occ).throttle = 0
    ∧ alookup (handle_client_message rotFn pid
        (ClientMessage.requestCharacterCreation name occ) s).1.players pid
        = some (occupationAdjust occ (Character.new pid name occ))
    ∧ (occ ≠ "Records Department Worker" → occ ≠ "Junior Spy Instructor" →
        occ ≠ "Fiction Department Writer" →
        occupationAdjust occ (Character.new id name occ)
          = Character.new id name occ) := by
  refine ⟨rfl, rfl, rfl, rfl, rfl, rfl, rfl, rfl, rfl, ?_, ?_⟩
  · simp [handle_client_message, h, alookup_ainsert_self]
  · intro h1 h2 h3
    simp [occupationAdjust, h1, h2, h3]

/-- C3 amended witness: concrete creation for an occupation outside the
table, from the fresh world. -/
theorem C3_amended_witness :
    alookup (handle_client_message rotId 0
        (ClientMessage.requestCharacterCreation "Winston" "Unemployed")
        GameState.new).1.players 0
      = some (occupationAdjust "Unemployed" (Character.new 0 "Winston" "Unemployed")) :=
  (C3_amended_defaults_and_handler_adjust rotId 0 0 "Winston" "Unemployed"
    GameState.new rfl).2.2.2.2.2.2.2.2.2.1

/-- C4 counterexample: a `MoveRequest` from an identity with no character
produces no message at all (empty emission list), not the claimed
sender-only structured error; the state is unchanged. -/
theorem C4_no_error_for_unknown_player :
    handle_client_message rotId 0 (ClientMessage.moveRequest "Canteen")
        GameState.new
      = (GameState.new, []) := rfl

/-- C4 amended: a `MoveRequest`, `FlyInput`, `JournalWriteRequest` or
`RestRequest` from a player identity with no character in `World.players`
leaves the world state unchanged and sends nothing to any client (the
source only logs a warning server-side). -/
theorem C4_amended_silent_ignore (rotFn : ℚ → ℚ → ℚ → Quat → Quat)
    (s : GameState) (pid : Nat) (h : alookup s.players pid = none) :
    (∀ target, handle_client_message rotFn pid
        (ClientMessage.moveRequest target) s = (s, []))
    ∧ (∀ p r y t, handle_client_message rotFn pid
        (ClientMessage.flyInput p r y t) s = (s, []))
    ∧ (∀ e, handle_client_message rotFn pid
        (ClientMessage.journalWriteRequest e) s = (s, []))
    ∧ handle_client_message rotFn pid ClientMessage.restRequest s = (s, []) := by
  refine ⟨fun target => ?_, fun p r y t => ?_, fun e => ?_, ?_⟩ <;>
    simp [handle_client_message, h]

/-- C4 amended witness: a rest request from a connection with no character
in the fresh world. -/
theorem C4_amended_witness :
    handle_client_message rotId 0 ClientMessage.restRequest GameState.new
      = (GameState.new, []) :=
  (C4_amended_silent_ignore rotId GameState.new 0 rfl).2.2.2

/-- C5: from the fresh world, the first `RequestCharacterCreation` with name
"Winston" and occupation "Records Department Worker" inserts a character
with loyalty 45, thoughtcrime 10 and location "Victory Mansions", and the
first emitted message is the player-joined broadcast to everyone except the
sender. -/
theorem C5_winston_creation :
    ∃ c : Character,
      alookup (handle_client_message rotId 0
        (ClientMessage.requestCharacterCreation "Winston" "Records Department Worker")
        GameState.new).1.players 0 = some c
      ∧ c.loyalty = 45 ∧ c.thoughtcrime = 10 ∧ c.location = "Victory Mansions"
      ∧ (handle_client_message rotId 0
          (ClientMessage.requestCharacterCreation "Winston" "Records Department Worker")
          GameState.new).2.head?
          = some (Delivery.broadcastExcept 0 (ServerMessage.playerJoined 0 c)) := by
  refine ⟨occupationAdjust "Records Department Worker"
    (Character.new 0 "Winston" "Records Department Worker"),
    rfl, by decide, by decide, by decide, rfl⟩

/-- C6: when the identity already has a character, any later
`RequestCharacterCreation` yields only the sender-only error and returns the
state unchanged (no insertion, existing character untouched). -/
theorem C6_duplicate_creation_rejected (rotFn : ℚ → ℚ → ℚ → Quat → Quat)
    (s : GameState) (pid : Nat) (ch : Character) (name occ : String)
    (h : alookup s.players pid = some ch) :
    handle_client_message rotFn pid
        (ClientMessage.requestCharacterCreation name occ) s
      = (s, [Delivery.unicast pid
              (ServerMessage.error "Character already created.")]) := by
  simp [handle_client_message, h]

/-- C6 witness: duplicate creation against a concrete one-player world. -/
theorem C6_duplicate_witness :
    handle_client_message rotId 0
        (ClientMessage.requestCharacterCreation "Julia" "Fiction Department Writer")
        oneState
      = (oneState, [Delivery.unicast 0
              (ServerMessage.error "Character already created.")]) :=
  C6_duplicate_creation_rejected rotId oneState 0 unknownChar "Julia"
    "Fiction Department Writer" rfl

/-- C10: every character returned by `Character::new` carries the cat
companion "Kocourek" (health 100, following), an active and unfailed
Kocourka quest, and an `anarcho_knowledge` table of exactly the five seeded
topics, each at understanding level 0. -/
theorem C10_new_character_companion_quest_knowledge (id : Nat)
    (name occ : String) :
    (Character.new id name occ).cat_companion
        = some { name := "Kocourek", health := 100,
                 status := CatStatus.following }
    ∧ (Character.new id name occ).kocourka_quest_active = true
    ∧ (Character.new id name occ).kocourka_quest_failed = false
    ∧ (Character.new id name occ).anarcho_knowledge
        = [("Principles of Non-Aggression", 0), ("Voluntary Exchange", 0),
           ("Free Market Economy", 0), ("Private Property Rights", 0),
           ("Decentralization", 0)]
    ∧ (Character.new id name occ).anarcho_knowledge.length = 5
    ∧ ∀ p ∈ (Character.new id name occ).anarcho_knowledge, p.2 = 0 := by
  refine ⟨rfl, rfl, rfl, rfl, rfl, ?_⟩
  intro p hp
  have hlist : (Character.new id name occ).anarcho_knowledge
      = [("Principles of Non-Aggression", 0), ("Voluntary Exchange", 0),
         ("Free Market Economy", 0), ("Private Property Rights", 0),
         ("Decentralization", 0)] := rfl
  rw [hlist] at hp
  simp only [List.mem_cons, List.not_mem_nil, or_false] at hp
  rcases hp with h | h | h | h | h <;> subst h <;> rfl

end Flight

namespace Flight

lemma Vec3.scale_eq_smul (v : Vec3) (c : ℚ) : v.scale c = Vec3.smul c v := by
  ext <;> simp [Vec3.scale, Vec3.smul] <;> ring

/-- C8: the per-tick physics mutation translated from the source equals, for
every character state, the integration step as the specification describes
it (gravity plus drag plus thrust at unit mass, semi-implicit Euler with the
fixed tick duration, ground clamp with zeroed negative vertical velocity and
horizontal friction). -/
theorem C8_physics_step_matches_spec (ch : Character) :
    physicsStep ch = physicsStepSpec ch := by
  have hv : ch.velocity.add
      ((((((ch.orientation.rotate ⟨0, 0, 1⟩).scale ch.throttle).scale 20).add
        gravity).add ((ch.velocity.neg).scale dragCoefficient)).scale frameTime)
      = ch.velocity.add (Vec3.smul frameTime
          ((gravity.add (Vec3.smul (-dragCoefficient) ch.velocity)).add
            (Vec3.smul (20 * ch.throttle) (ch.orientation.rotate ⟨0, 0, 1⟩)))) := by
    ext <;> simp [Vec3.add, Vec3.scale, Vec3.smul, Vec3.neg] <;> ring
  simp only [physicsStep, physicsStepSpec]
  rw [hv]
  simp only [Vec3.scale_eq_smul]
  split <;> simp [mul_comm]

end Flight

namespace Flight

lemma dcount_append (d : Delivery) (l1 l2 : List Delivery) :
    dcount d (l1 ++ l2) = dcount d l1 + dcount d l2 := by
  induction l1 with
  | nil => simp [dcount]
  | cons e rest ih => simp [dcount, ih, Nat.add_assoc]

lemma terminationScan_ids_sublist (ps : List (Nat × Character)) :
    List.Sublist (terminationScan ps).1 (ps.map Prod.fst) := by
  induction ps with
  | nil => simp [terminationScan]
  | cons p rest ih =>
    obtain ⟨id, c⟩ := p
    simp only [terminationScan, List.map_cons]
    by_cases h1 : c.health = 0
    · simpa [h1] using ih.cons₂ id
    · by_cases h2 : 100 ≤ c.suspicion
      · simpa [h1, h2] using ih.cons₂ id
      · simpa [h1, h2] using ih.cons id

lemma terminationScan_mem (ps : List (Nat × Character)) (pid : Nat)
    (ch : Character) (hl : alookup ps pid = some ch)
    (hc : ch.health = 0 ∨ 100 ≤ ch.suspicion) :
    pid ∈ (terminationScan ps).1 := by
  induction ps with
  | nil => simp [alookup] at hl
  | cons p rest ih =>
    obtain ⟨id, c⟩ := p
    by_cases hid : id = pid
    · subst hid
      have hceq : c = ch := by simpa [alookup] using hl
      subst hceq
      by_cases h1 : c.health = 0
      · simp [terminationScan, h1]
      · have h2 : 100 ≤ c.suspicion := hc.resolve_left h1
        simp [terminationScan, h1, h2]
    · have hl' : alookup rest pid = some ch := by simpa [alookup, hid] using hl
      have hrec := ih hl'
      by_cases h1 : c.health = 0
      · simp only [terminationScan, h1, if_pos rfl]
        exact List.mem_cons_of_mem _ hrec
      · by_cases h2 : 100 ≤ c.suspicion
        · simp only [terminationScan, if_neg h1, if_pos h2]
          exact List.mem_cons_of_mem _ hrec
        · simpa [terminationScan, h1, h2] using hrec

lemma dcount_scan_unicast_zero (ps : List (Nat × Character)) (pid : Nat)
    (hnm : pid ∉ ps.map Prod.fst) (m : ServerMessage) :
    dcount (Delivery.unicast pid m) (terminationScan ps).2 = 0 := by
  induction ps with
  | nil => simp [terminationScan, dcount]
  | cons p rest ih =>
    obtain ⟨id, c⟩ := p
    simp only [List.map_cons, List.mem_cons] at hnm
    push_neg at hnm
    have hne : ¬ id = pid := fun h => hnm.1 h.symm
    by_cases h1 : c.health = 0
    · simp [terminationScan, h1, dcount, hne, ih hnm.2]
    · by_cases h2 : 100 ≤ c.suspicion
      · simp [terminationScan, h1, h2, dcount, hne, ih hnm.2]
      · simpa [terminationScan, h1, h2] using ih hnm.2

lemma dcount_scan_bexc_zero (ps : List (Nat × Character)) (a : Nat)
    (m : ServerMessage) :
    dcount (Delivery.broadcastExcept a m) (terminationScan ps).2 = 0 := by
  induction ps with
  | nil => simp [terminationScan, dcount]
  | cons p rest ih =>
    obtain ⟨id, c⟩ := p
    by_cases h1 : c.health = 0
    · simp [terminationScan, h1, dcount, ih]
    · by_cases h2 : 100 ≤ c.suspicion
      · simp [terminationScan, h1, h2, dcount, ih]
      · simpa [terminationScan, h1, h2] using ih

lemma dcount_scan_close_zero (ps : List (Nat × Character)) (a : Nat) :
    dcount (Delivery.closeConn a) (terminationScan ps).2 = 0 := by
  induction ps with
  | nil => simp [terminationScan, dcount]
  | cons p rest ih =>
    obtain ⟨id, c⟩ := p
    by_cases h1 : c.health = 0
    · simp [terminationScan, h1, dcount, ih]
    · by_cases h2 : 100 ≤ c.suspicion
      · simp [terminationScan, h1, h2, dcount, ih]
      · simpa [terminationScan, h1, h2] using ih

lemma dcount_scan_narr_self (ps : List (Nat × Character)) (pid : Nat)
    (ch : Character) (hnd : (ps.map Prod.fst).Nodup)
    (hl : alookup ps pid = some ch)
    (hc : ch.health = 0 ∨ 100 ≤ ch.suspicion) :
    dcount (Delivery.unicast pid (ServerMessage.narrativeUpdate (causeText ch)))
      (terminationScan ps).2 = 1 := by
  induction ps with
  | nil => simp [alookup] at hl
  | cons p rest ih =>
    obtain ⟨id, c⟩ := p
    simp only [List.map_cons, List.nodup_cons] at hnd
    by_cases hid : id = pid
    · subst hid
      have hceq : c = ch := by simpa [alookup] using hl
      subst hceq
      by_cases h1 : c.health = 0
      · simp [terminationScan, h1, dcount, causeText,
          dcount_scan_unicast_zero rest id hnd.1]
      · have h2 : 100 ≤ c.suspicion := hc.resolve_left h1
        simp [terminationScan, h1, h2, dcount, causeText,
          dcount_scan_unicast_zero rest id hnd.1]
    · have hl' : alookup rest pid = some ch := by simpa [alookup, hid] using hl
      by_cases h1 : c.health = 0
      · simp [terminationScan, h1, dcount, hid, ih hnd.2 hl']
      · by_cases h2 : 100 ≤ c.suspicion
        · simp [terminationScan, h1, h2, dcount, hid, ih hnd.2 hl']
        · simpa [terminationScan, h1, h2] using ih hnd.2 hl'

end Flight

namespace Flight

lemma dcount_rm_unicast_zero (clients : List Nat) (q : Nat)
    (m : ServerMessage) :
    ∀ (ids : List Nat) (ps : List (Nat × Character)),
      dcount (Delivery.unicast q m) (removeMarked clients ids ps).2.1 = 0 := by
  intro ids
  induction ids with
  | nil => intro ps; simp [removeMarked, dcount]
  | cons id rest ih =>
    intro ps
    cases h : alookup ps id with
    | some c =>
        by_cases hcl : id ∈ clients <;>
          simp [removeMarked, h, hcl, dcount, dcount_append, ih]
    | none => simpa [removeMarked, h] using ih ps

lemma removeMarked_not_mem (clients : List Nat) (pid : Nat) :
    ∀ (ids : List Nat), pid ∉ ids →
    ∀ (ps : List (Nat × Character)),
      alookup (removeMarked clients ids ps).1 pid = alookup ps pid
      ∧ dcount (Delivery.broadcastExcept pid (ServerMessage.playerLeft pid))
          (removeMarked clients ids ps).2.1 = 0
      ∧ dcount (Delivery.closeConn pid)
          (removeMarked clients ids ps).2.1 = 0 := by
  intro ids
  induction ids with
  | nil => intro _ ps; simp [removeMarked, dcount]
  | cons id rest ih =>
    intro hni ps
    simp only [List.mem_cons] at hni
    push_neg at hni
    have hne : ¬ id = pid := fun h => hni.1 h.symm
    cases h : alookup ps id with
    | some c =>
        obtain ⟨h1, h2, h3⟩ := ih hni.2 (aremove id ps)
        refine ⟨?_, ?_, ?_⟩
        · simp only [removeMarked, h]
          exact h1.trans (alookup_aremove_ne id pid ps hni.1)
        · by_cases hcl : id ∈ clients <;>
            simp [removeMarked, h, hcl, dcount, dcount_append, hne, h2]
        · by_cases hcl : id ∈ clients <;>
            simp [removeMarked, h, hcl, dcount, dcount_append, hne, h3]
    | none =>
        obtain ⟨h1, h2, h3⟩ := ih hni.2 ps
        exact ⟨by simpa [removeMarked, h] using h1,
               by simpa [removeMarked, h] using h2,
               by simpa [removeMarked, h] using h3⟩

lemma removeMarked_removes (clients : List Nat) (pid : Nat) :
    ∀ (ids : List Nat), ids.Nodup → pid ∈ ids →
    ∀ (ps : List (Nat × Character)), (ps.map Prod.fst).Nodup →
      (alookup ps pid).isSome = true →
      alookup (removeMarked clients ids ps).1 pid = none
      ∧ dcount (Delivery.broadcastExcept pid (ServerMessage.playerLeft pid))
          (removeMarked clients ids ps).2.1 = 1
      ∧ dcount (Delivery.closeConn pid) (removeMarked clients ids ps).2.1
          = (if pid ∈ clients then 1 else 0) := by
  intro ids
  induction ids with
  | nil => intro _ hmem; simp at hmem
  | cons id rest ih =>
    intro hnd hmem ps hps hl
    simp only [List.nodup_cons] at hnd
    by_cases hid : id = pid
    · subst hid
      obtain ⟨c, hch⟩ : ∃ c, alookup ps id = some c := by
        cases hx : alookup ps id with
        | none => rw [hx] at hl; simp at hl
        | some c => exact ⟨c, rfl⟩
      obtain ⟨hlook0, hb0, hc0⟩ :=
        removeMarked_not_mem clients id rest hnd.1 (aremove id ps)
      refine ⟨?_, ?_, ?_⟩
      · simp only [removeMarked, hch]
        exact hlook0.trans (alookup_aremove_self id ps hps)
      · by_cases hcl : id ∈ clients <;>
          simp [removeMarked, hch, hcl, dcount, dcount_append, hb0]
      · by_cases hcl : id ∈ clients <;>
          simp [removeMarked, hch, hcl, dcount, dcount_append, hc0]
    · have hmem' : pid ∈ rest := by
        rcases List.mem_cons.mp hmem with h | h
        · exact absurd h.symm hid
        · exact h
      cases hch : alookup ps id with
      | some c =>
          have hps' : ((aremove id ps).map Prod.fst).Nodup :=
            List.Sublist.nodup (aremove_keys_sublist id ps) hps
          have hl' : (alookup (aremove id ps) pid).isSome = true := by
            rw [alookup_aremove_ne id pid ps (fun hh => hid hh.symm)]
            exact hl
          obtain ⟨h1, h2, h3⟩ := ih hnd.2 hmem' (aremove id ps) hps' hl'
          refine ⟨by simpa [removeMarked, hch] using h1, ?_, ?_⟩
          · by_cases hcl : id ∈ clients <;>
              simp [removeMarked, hch, hcl, dcount, dcount_append, hid, h2]
          · by_cases hcl : id ∈ clients <;>
              simp [removeMarked, hch, hcl, dcount, dcount_append, hid, h3]
      | none =>
          obtain ⟨h1, h2, h3⟩ := ih hnd.2 hmem' ps hps hl
          exact ⟨by simpa [removeMarked, hch] using h1,
                 by simpa [removeMarked, hch] using h2,
                 by simpa [removeMarked, hch] using h3⟩

lemma dcount_broadcast_tail (d : Delivery) (b : Bool) (m : ServerMessage)
    (hd : d ≠ Delivery.broadcastAll m) :
    dcount d (if b = true then [Delivery.broadcastAll m] else []) = 0 := by
  have hne : ¬ Delivery.broadcastAll m = d := fun h => hd h.symm
  cases b <;> simp [dcount, hne]

end Flight

namespace Flight

/-- C9: on a simulation tick, every character whose health is 0 or whose
suspicion is at least 100 at the start of the tick is removed from the
player map (and stays removed — at most one removal), exactly one
cause-specific narrative is unicast to that player, exactly one
"player left" broadcast (excluding the removed player) is emitted, exactly
one close signal goes to the player's sink when one is registered, the
death and arrest texts are distinct, and the narrative is emitted in the
scan segment strictly before the removal segment that carries the
"player left" broadcast. -/
theorem C9_termination_scan_removal (clients : List Nat) (s : GameState)
    (pid : Nat) (ch : Character)
    (hnd : (s.players.map Prod.fst).Nodup)
    (hl : alookup s.players pid = some ch)
    (hc : ch.health = 0 ∨ 100 ≤ ch.suspicion) :
    alookup (gameTick clients s).1.players pid = none
    ∧ dcount (Delivery.unicast pid
        (ServerMessage.narrativeUpdate (causeText ch))) (gameTick clients s).2 = 1
    ∧ dcount (Delivery.broadcastExcept pid (ServerMessage.playerLeft pid))
        (gameTick clients s).2 = 1
    ∧ dcount (Delivery.closeConn pid) (gameTick clients s).2
        = (if pid ∈ clients then 1 else 0)
    ∧ causeText ch = (if ch.health = 0 then deathText else arrestText)
    ∧ deathText ≠ arrestText
    ∧ ∃ pre post, (gameTick clients s).2 = pre ++ post
        ∧ dcount (Delivery.unicast pid
            (ServerMessage.narrativeUpdate (causeText ch))) pre = 1
        ∧ dcount (Delivery.broadcastExcept pid
            (ServerMessage.playerLeft pid)) pre = 0
        ∧ dcount (Delivery.broadcastExcept pid
            (ServerMessage.playerLeft pid)) post = 1 := by
  have hmem := terminationScan_mem s.players pid ch hl hc
  have hids : (terminationScan s.players).1.Nodup :=
    List.Sublist.nodup (terminationScan_ids_sublist s.players) hnd
  have hsome : (alookup s.players pid).isSome = true := by rw [hl]; rfl
  obtain ⟨h1, h2, h3⟩ := removeMarked_removes clients pid
    (terminationScan s.players).1 hids hmem s.players hnd hsome
  have hrm0 := dcount_rm_unicast_zero clients pid
    (ServerMessage.narrativeUpdate (causeText ch))
    (terminationScan s.players).1 s.players
  have hscan1 := dcount_scan_narr_self s.players pid ch hnd hl hc
  have hscanb := dcount_scan_bexc_zero s.players pid
    (ServerMessage.playerLeft pid)
  have hscanc := dcount_scan_close_zero s.players pid
  refine ⟨?_, ?_, ?_, ?_, rfl, by decide, ?_⟩
  · simp only [gameTick]
    rw [alookup_mapvalues, h1]
    rfl
  · simp only [gameTick, dcount_append]
    rw [hscan1, hrm0, dcount_broadcast_tail _ _ _ (by simp)]
  · simp only [gameTick, dcount_append]
    rw [hscanb, h2, dcount_broadcast_tail _ _ _ (by simp)]
  · simp only [gameTick, dcount_append]
    rw [hscanc, h3, dcount_broadcast_tail _ _ _ (by simp)]
    simp
  · refine ⟨(terminationScan s.players).2,
      (removeMarked clients (terminationScan s.players).1 s.players).2.1 ++
        (if ((removeMarked clients (terminationScan s.players).1 s.players).2.2
              || !(removeMarked clients (terminationScan s.players).1
                    s.players).1.isEmpty) = true
         then [Delivery.broadcastAll (ServerMessage.gameStateUpdate
                { s with players :=
                    (removeMarked clients (terminationScan s.players).1
                      s.players).1.map (fun p => (p.1, physicsStep p.2)) })]
         else []), ?_, hscan1, hscanb, ?_⟩
    · simp only [gameTick]
      rw [List.append_assoc]
    · rw [dcount_append, h2, dcount_broadcast_tail _ _ _ (by simp)]

/-- C9 witness: a one-player world whose character has health 0, with that
player's sink registered. -/
theorem C9_termination_witness :
    alookup (gameTick [0] deadState).1.players 0 = none
    ∧ dcount (Delivery.broadcastExcept 0 (ServerMessage.playerLeft 0))
        (gameTick [0] deadState).2 = 1
    ∧ dcount (Delivery.closeConn 0) (gameTick [0] deadState).2
        = (if 0 ∈ [0] then 1 else 0) :=
  ⟨(C9_termination_scan_removal [0] deadState 0 deadChar (by decide) rfl
      (Or.inl (by decide))).1,
   (C9_termination_scan_removal [0] deadState 0 deadChar (by decide) rfl
      (Or.inl (by decide))).2.2.1,
   (C9_termination_scan_removal [0] deadState 0 deadChar (by decide) rfl
      (Or.inl (by decide))).2.2.2.1⟩

end Flight
